import Mathlib

/-!
# coupon_mvp: coupon validation engine

A shallow embedding of `internal/domain/coupon.go`,
`internal/service/coupon_service.go` and the two store operations
`Create` / `GetByCode` of `internal/repository/coupon_repository.go`.

Conventions of the embedding:

* `time.Time` is an instant, an `Int` count of nanoseconds; `After` and `Before`
  are the strict orders on instants.
* A finite `float64` is the rational it denotes (`ℚ`); the amounts of a coupon and
  of a request arrive through JSON, which carries finite values only. The result
  of a `float64` operation is an `F64`: the exact result rounded to the nearest
  binary64 value, ties to even, or an infinity on overflow. The two zeros of
  `float64` are one value here.
* Go string types (`UsageType`, `DiscountType`) stay strings.
* Every `time.Now()` in the source is an explicit argument, one per call site.
* A Go `error` value is a `GoError` carrying its message; `nil` is `none`.
* A call that the Go runtime stops on a nil pointer has the outcome
  `Outcome.nilPointerDereference`; a call that comes back has `Outcome.returned`.
-/

set_option exponentiation.threshold 2048

namespace CouponMvp

/-! ## Go values shared by the packages -/

/-- A Go `error` value; `Error()` is its message. -/
structure GoError where
  Error : String
deriving DecidableEq, Repr

/-- How a Go call ends: it returns its results, or the runtime stops it with a
nil-pointer dereference. -/
inductive Outcome (α : Type) where
  | returned (a : α)
  | nilPointerDereference
deriving DecidableEq, Repr

/-! ### float64 arithmetic (IEEE 754 binary64, round to nearest, ties to even) -/

/-- A `float64` value: a finite number, an infinity, or not-a-number. -/
inductive F64 where
  | finite (q : ℚ)
  | posInf
  | negInf
  | nan
deriving DecidableEq, Repr

/-- The number of binary digits of `m`, by halving; `fuel` bounds the halvings. -/
def bitLengthAux : Nat → Nat → Nat
  | 0, _ => 0
  | fuel + 1, m => if m = 0 then 0 else bitLengthAux fuel (m / 2) + 1

/-- The number of binary digits of `m`: `2 ^ (bitLength m - 1) ≤ m < 2 ^ bitLength m`
for `m > 0`. -/
def bitLength (m : Nat) : Nat := bitLengthAux m m

/-- The integer nearest to `m / n`, the even one of the two when `m / n` lies
halfway between them. -/
def roundHalfEven (m n : Nat) : Nat :=
  let q := m / n
  let r := m % n
  if 2 * r < n then q else if n < 2 * r then q + 1 else if q % 2 = 0 then q else q + 1

/-- The binary exponent of `m / n` for `m, n > 0`: the `e` with
`2 ^ e ≤ m / n < 2 ^ (e + 1)`. The difference `k` of the bit lengths is `e` or
`e + 1`; the comparison of `m / n` with `2 ^ k` tells which. -/
def floorLog2 (m n : Nat) : Int :=
  let k : Int := (bitLength m : Int) - (bitLength n : Int)
  if n * 2 ^ k.toNat ≤ m * 2 ^ (-k).toNat then k else k - 1

/-- The magnitude `m / n` (`m, n > 0`) rounded to binary64: `some (sig, qe)` is
the value `sig * 2 ^ qe`, where `2 ^ qe` is the spacing of binary64 values at
`m / n` (53 significant bits, least exponent -1022, so `qe ≥ -1074`) and `sig`
is `m / n` in units of that spacing, rounded to nearest, ties to even; `none`
is overflow, the rounded value reaching `2 ^ 1024`. -/
def roundMagnitude (m n : Nat) : Option (Nat × Int) :=
  let e := floorLog2 m n
  let qe := max e (-1022) - 52
  let sig := roundHalfEven (m * 2 ^ (-qe).toNat) (n * 2 ^ qe.toNat)
  if 2 ^ 1024 * 2 ^ (-qe).toNat ≤ sig * 2 ^ qe.toNat then none else some (sig, qe)

/-- The binary64 value of the exact result `x` of an operation on finite operands. -/
def roundF64 (x : ℚ) : F64 :=
  if x = 0 then .finite 0
  else
    match roundMagnitude x.num.natAbs x.den with
    | none => if 0 < x then .posInf else .negInf
    | some (sig, qe) => .finite (if 0 < x then sig * 2 ^ qe else -(sig * 2 ^ qe))

/-- The `float64` product `a * b`. -/
def F64.mul : F64 → F64 → F64
  | .nan, _ => .nan
  | _, .nan => .nan
  | .finite a, .finite b => roundF64 (a * b)
  | .finite a, .posInf => if a = 0 then .nan else if 0 < a then .posInf else .negInf
  | .finite a, .negInf => if a = 0 then .nan else if 0 < a then .negInf else .posInf
  | .posInf, .finite b => if b = 0 then .nan else if 0 < b then .posInf else .negInf
  | .negInf, .finite b => if b = 0 then .nan else if 0 < b then .negInf else .posInf
  | .posInf, .posInf => .posInf
  | .posInf, .negInf => .negInf
  | .negInf, .posInf => .negInf
  | .negInf, .negInf => .posInf

/-- The `float64` quotient `a / b` of two finite values, the divisor not zero. -/
def F64.quot (a b : ℚ) (_ : b ≠ 0) : F64 := roundF64 (a / b)

/-! ## internal/domain/coupon.go -/

/-- An instant (`time.Time`), in nanoseconds. -/
abbrev Time := Int

/-- The method `t.After(u)`: `t` is strictly later than `u`. -/
def Time.After (t u : Time) : Bool := decide (u < t)

/-- The method `t.Before(u)`: `t` is strictly earlier than `u`. -/
def Time.Before (t u : Time) : Bool := decide (t < u)

/-- The duration `time.Minute`, in nanoseconds. -/
def Minute : Int := 60 * 1000000000

abbrev UsageType := String
def OneTime : UsageType := "one_time"
def MultiUse : UsageType := "multi_use"
def TimeBased : UsageType := "time_based"

abbrev DiscountType := String
def Percentage : DiscountType := "percentage"
def Fixed : DiscountType := "fixed"

structure TimeWindow where
  StartTime : Time
  EndTime : Time
deriving DecidableEq, Repr

structure Coupon where
  ID : String
  CouponCode : String
  ExpiryDate : Time
  UsageType : UsageType
  ApplicableMedicineIDs : List String
  ApplicableCategories : List String
  MinOrderValue : ℚ
  ValidTimeWindow : Option TimeWindow
  TermsAndConditions : String
  DiscountType : DiscountType
  DiscountValue : ℚ
  MaxUsagePerUser : Int
  CreatedAt : Time
  UpdatedAt : Time
deriving DecidableEq, Repr

structure CartItem where
  ID : String
  Category : String
  Price : ℚ
deriving DecidableEq, Repr

structure ValidationRequest where
  CouponCode : String
  CartItems : List CartItem
  OrderTotal : ℚ
  Timestamp : Time
deriving DecidableEq, Repr

structure Discount where
  ItemsDiscount : F64
  ChargesDiscount : F64
deriving DecidableEq, Repr

structure ValidationResponse where
  IsValid : Bool
  Discount : Option Discount
  Message : String
  Reason : String
deriving DecidableEq, Repr

/-! ## internal/repository/coupon_repository.go -/

/-- The columns the `SELECT` of `GetByCode` reads; the two window columns are nullable. -/
structure CouponRow where
  id : String
  coupon_code : String
  expiry_date : Time
  usage_type : String
  applicable_medicine_ids : List String
  applicable_categories : List String
  min_order_value : ℚ
  valid_time_window_start : Option Time
  valid_time_window_end : Option Time
  terms_and_conditions : String
  discount_type : String
  discount_value : ℚ
  max_usage_per_user : Int
  created_at : Time
  updated_at : Time
deriving DecidableEq, Repr

/-- What `pool.QueryRow(...)` holds before `Scan`: a row, `pgx.ErrNoRows`, or another error. -/
inductive QueryRowResult where
  | row (r : CouponRow)
  | errNoRows
  | failed (err : GoError)

/-- The interface `CouponRepository`, restricted to the method the service calls
in `ValidateCoupon`. A call that returns `(nil, err)` is `.returned (.error err)`,
`(nil, nil)` is `.returned (.ok none)`, `(coupon, nil)` is
`.returned (.ok (some coupon))`. -/
structure CouponRepository where
  GetByCode : String → Outcome (Except GoError (Option Coupon))

/-- The connection pool: the answer to the lookup by code, and the result of the
insert given its fifteen arguments (the last two are the `time.Now()` readings). -/
structure Pool where
  QueryRow : String → QueryRowResult
  Exec : CouponRow → Option GoError

/-- The zero value of `domain.Coupon` (`var coupon domain.Coupon`): the pointer
`ValidTimeWindow` is `nil`. -/
def zeroCoupon : Coupon :=
  { ID := "", CouponCode := "", ExpiryDate := 0, UsageType := "", ApplicableMedicineIDs := [],
    ApplicableCategories := [], MinOrderValue := 0, ValidTimeWindow := none,
    TermsAndConditions := "", DiscountType := "", DiscountValue := 0, MaxUsagePerUser := 0,
    CreatedAt := 0, UpdatedAt := 0 }

/-- The call of `Scan` into the fields of `coupon`, the window columns going into the
window `w` that `coupon.ValidTimeWindow` points to; a NULL cannot be scanned
into a `time.Time`. -/
def scanRow (coupon : Coupon) (w : TimeWindow) : QueryRowResult → Coupon × Option GoError
  | .errNoRows => (coupon, some ⟨"no rows in result set"⟩)
  | .failed err => (coupon, some err)
  | .row r =>
    match r.valid_time_window_start, r.valid_time_window_end with
    | some st, some en =>
      ({ ID := r.id, CouponCode := r.coupon_code, ExpiryDate := r.expiry_date,
         UsageType := r.usage_type, ApplicableMedicineIDs := r.applicable_medicine_ids,
         ApplicableCategories := r.applicable_categories, MinOrderValue := r.min_order_value,
         ValidTimeWindow := some { w with StartTime := st, EndTime := en },
         TermsAndConditions := r.terms_and_conditions, DiscountType := r.discount_type,
         DiscountValue := r.discount_value, MaxUsagePerUser := r.max_usage_per_user,
         CreatedAt := r.created_at, UpdatedAt := r.updated_at }, none)
    | _, _ => (coupon, some ⟨"cannot scan NULL into *time.Time"⟩)

/-- The method `couponRepository.GetByCode`. The operands of `Scan` include
`&coupon.ValidTimeWindow.StartTime` and `&coupon.ValidTimeWindow.EndTime`, which
go through the pointer `coupon.ValidTimeWindow` of the freshly declared coupon. -/
def GetByCode (pool : Pool) (code : String) : Outcome (Except GoError (Option Coupon)) :=
  let coupon := zeroCoupon
  let row := pool.QueryRow code
  match coupon.ValidTimeWindow with
  | none => .nilPointerDereference
  | some w =>
    match scanRow coupon w row with
    | (scanned, none) => .returned (.ok (some scanned))
    | (_, some err) =>
      match row with
      | .errNoRows => .returned (.ok none)
      | _ => .returned (.error err)

/-- The method `couponRepository.Create`. The operands of `Exec` include
`coupon.ValidTimeWindow.StartTime` and `coupon.ValidTimeWindow.EndTime`. -/
def Create (pool : Pool) (now₁ now₂ : Time) (coupon : Coupon) : Outcome (Option GoError) :=
  match coupon.ValidTimeWindow with
  | none => .nilPointerDereference
  | some w =>
    .returned (pool.Exec
      { id := coupon.ID, coupon_code := coupon.CouponCode, expiry_date := coupon.ExpiryDate,
        usage_type := coupon.UsageType,
        applicable_medicine_ids := coupon.ApplicableMedicineIDs,
        applicable_categories := coupon.ApplicableCategories,
        min_order_value := coupon.MinOrderValue,
        valid_time_window_start := some w.StartTime, valid_time_window_end := some w.EndTime,
        terms_and_conditions := coupon.TermsAndConditions, discount_type := coupon.DiscountType,
        discount_value := coupon.DiscountValue, max_usage_per_user := coupon.MaxUsagePerUser,
        created_at := now₁, updated_at := now₂ })

/-- The constructor `NewCouponRepository`: the repository over a pool, as the interface. -/
def NewCouponRepository (pool : Pool) : CouponRepository :=
  { GetByCode := GetByCode pool }

/-! ## internal/service/coupon_service.go -/

def ErrCouponNotFound : GoError := ⟨"coupon not found"⟩
def ErrCouponExpired : GoError := ⟨"coupon has expired"⟩
def ErrMinOrderNotMet : GoError := ⟨"minimum order value not met"⟩
def ErrInvalidTimeWindow : GoError := ⟨"invalid time window"⟩

/-- The inner `for ... range` loops of `validateCouponRules`: walk the filter
list, set `validItems` at the first element equal to `key` and `break`;
otherwise leave the flag as it was. -/
def scanFilter (key : String) : List String → Bool → Bool
  | [], validItems => validItems
  | x :: rest, validItems => if key = x then true else scanFilter key rest validItems

/-- The outer `for _, item := range req.CartItems` loop: for each item first
the medicine-ID loop, then the category loop, threading `validItems`. -/
def scanCart (coupon : Coupon) : List CartItem → Bool → Bool
  | [], validItems => validItems
  | item :: rest, validItems =>
    let afterIDs := scanFilter item.ID coupon.ApplicableMedicineIDs validItems
    let afterCategories := scanFilter item.Category coupon.ApplicableCategories afterIDs
    scanCart coupon rest afterCategories

/-- The method `validateCouponRules`. `now₁` is the `time.Now()` read by the expiry check,
`now₂` the `time.Now()` read inside the time-window check. The Go function
always returns a `nil` error, so the result is an `Except.ok`. -/
def validateCouponRules (now₁ now₂ : Time) (coupon : Coupon) (req : ValidationRequest) :
    Except GoError ValidationResponse :=
  -- check the expiry
  if Time.After now₁ coupon.ExpiryDate then
    .ok { IsValid := false, Discount := none, Message := "", Reason := ErrCouponExpired.Error }
  -- check minimum order value
  else if req.OrderTotal < coupon.MinOrderValue then
    .ok { IsValid := false, Discount := none, Message := "", Reason := ErrMinOrderNotMet.Error }
  else
    -- check time window if applicable
    let windowRejects : Bool :=
      match coupon.ValidTimeWindow with
      | none => false
      | some w => Time.Before now₂ w.StartTime || Time.After now₂ w.EndTime
    if windowRejects then
      .ok { IsValid := false, Discount := none, Message := "", Reason := ErrInvalidTimeWindow.Error }
    else
      -- check applicable medicines and categories
      let validItems := scanCart coupon req.CartItems false
      if !validItems then
        .ok { IsValid := false, Discount := none, Message := "",
              Reason := "No applicable items in cart" }
      else
        -- calculate discount
        let itemsDiscount : F64 :=
          if coupon.DiscountType = Percentage then
            F64.mul (.finite req.OrderTotal) (F64.quot coupon.DiscountValue 100 (by norm_num))
          else
            .finite coupon.DiscountValue
        .ok { IsValid := true,
              Discount := some { ItemsDiscount := itemsDiscount, ChargesDiscount := .finite 0 },
              Message := "Coupon applied successfully", Reason := "" }

/-! ### Collaborators of `ValidateCoupon`

`encoding/json` and the Redis client are outside the repository; they enter as a
codec parameter and as an explicit cache state. The store enters through the
interface `CouponRepository`, so that any implementation can be supplied. -/

/-- The functions `json.Marshal` / `json.Unmarshal` on `domain.Coupon`, over a byte type. -/
structure Codec (Bytes : Type) where
  Marshal : Coupon → Except GoError Bytes
  Unmarshal : Bytes → Except GoError Coupon

/-- One cache entry: key, bytes, expiry instant. -/
structure CacheEntry (Bytes : Type) where
  key : String
  value : Bytes
  expiresAt : Time

/-- The cache state: at most the first entry of a key is visible. -/
abbrev Cache (Bytes : Type) := List (CacheEntry Bytes)

/-- The error `redis.Nil` of a lookup that finds no live entry. -/
def redisNil : GoError := ⟨"redis: nil"⟩

/-- The error of a cache operation that does not reach the server. -/
def redisDown : GoError := ⟨"redis: connection refused"⟩

/-- A cache lookup at instant `t`: the entry of `key` while it has not expired. -/
def Cache.Get {Bytes : Type} (c : Cache Bytes) (t : Time) (key : String) : Except GoError Bytes :=
  match c.find? (fun e => decide (e.key = key)) with
  | some e => if t ≤ e.expiresAt then .ok e.value else .error redisNil
  | none => .error redisNil

/-- A cache write at instant `t` with time-to-live `ttl`: replaces the entry of `key`. -/
def Cache.Set {Bytes : Type} (c : Cache Bytes) (t : Time) (key : String) (value : Bytes)
    (ttl : Int) : Cache Bytes :=
  { key := key, value := value, expiresAt := t + ttl } :: c.filter (fun e => !decide (e.key = key))

/-- What one call of `ValidateCoupon` reads from its surroundings: the cache
server's clock and reachability at `Get` and at `Set`, and the two `time.Now()`
readings of `validateCouponRules`. -/
structure Env where
  getAt : Time
  getDown : Bool
  setAt : Time
  setDown : Bool
  now₁ : Time
  now₂ : Time

/-- The state a call of `ValidateCoupon` acts on: the cache and a counter of
calls to the store's `GetByCode`. -/
structure ServiceState (Bytes : Type) where
  cache : Cache Bytes
  storeCalls : Nat

/-- The call `s.redis.Get(ctx, cacheKey).Bytes()`. -/
def redisGet {Bytes : Type} (env : Env) (s : ServiceState Bytes) (key : String) :
    Except GoError Bytes :=
  if env.getDown then .error redisDown else s.cache.Get env.getAt key

/-- The call `s.redis.Set(ctx, cacheKey, couponData, ttl)`; the result is dropped by the caller. -/
def redisSet {Bytes : Type} (env : Env) (s : ServiceState Bytes) (key : String) (value : Bytes)
    (ttl : Int) : ServiceState Bytes :=
  if env.setDown then s else { s with cache := s.cache.Set env.setAt key value ttl }

/-- The method `ValidateCoupon`: cache first, then the store, then the rules. The call
ends as the store's `GetByCode` ends when that does not return. -/
def ValidateCoupon {Bytes : Type} (codec : Codec Bytes) (repo : CouponRepository) (env : Env)
    (s : ServiceState Bytes) (req : ValidationRequest) :
    Outcome (Except GoError ValidationResponse) × ServiceState Bytes :=
  -- try to get coupon from redis first
  let cacheKey := "coupon:" ++ req.CouponCode
  let fromCache : Option Coupon :=
    match redisGet env s cacheKey with
    | .ok cachedData =>
      match codec.Unmarshal cachedData with
      | .ok coupon => some coupon
      | .error _ => none
    | .error _ => none
  match fromCache with
  | some coupon => (.returned (validateCouponRules env.now₁ env.now₂ coupon req), s)
  | none =>
    -- if not present in redis, get from database
    let s₁ := { s with storeCalls := s.storeCalls + 1 }
    match repo.GetByCode req.CouponCode with
    | .nilPointerDereference => (.nilPointerDereference, s₁)
    | .returned (.error err) => (.returned (.error err), s₁)
    | .returned (.ok none) =>
      (.returned (.ok { IsValid := false, Discount := none, Message := "",
                        Reason := ErrCouponNotFound.Error }), s₁)
    | .returned (.ok (some coupon)) =>
      -- cache the coupon in redis
      let s₂ :=
        match codec.Marshal coupon with
        | .ok couponData => redisSet env s₁ cacheKey couponData (5 * Minute)
        | .error _ => s₁
      (.returned (validateCouponRules env.now₁ env.now₂ coupon req), s₂)

/-! ## Sample data of the end-to-end scenarios -/

/-- One day in nanoseconds. -/
def Day : Int := 24 * 60 * Minute

/-- Coupon `SAVE10`: percentage 10%, minimum order 100, categories `["otc"]`,
expiry 30 days after instant 0, no time window. -/
def SAVE10 : Coupon :=
  { ID := "c-1", CouponCode := "SAVE10", ExpiryDate := 30 * Day, UsageType := MultiUse,
    ApplicableMedicineIDs := [], ApplicableCategories := ["otc"], MinOrderValue := 100,
    ValidTimeWindow := none, TermsAndConditions := "", DiscountType := Percentage,
    DiscountValue := 10, MaxUsagePerUser := 1, CreatedAt := 0, UpdatedAt := 0 }

/-- A cart `[{id:"a", category:"otc", price:150}]` with the given order total. -/
def otcRequest (orderTotal : ℚ) : ValidationRequest :=
  { CouponCode := "SAVE10", CartItems := [{ ID := "a", Category := "otc", Price := 150 }],
    OrderTotal := orderTotal, Timestamp := 0 }

/-- A request against `SAVE10` with the given cart and order total. -/
def cartRequest (items : List CartItem) (orderTotal : ℚ) : ValidationRequest :=
  { CouponCode := "SAVE10", CartItems := items, OrderTotal := orderTotal, Timestamp := 0 }

/-- An item that `SAVE10` does not cover. -/
def rxItem : CartItem := { ID := "z", Category := "rx", Price := 10 }

/-- An item that `SAVE10` covers through its category. -/
def otcItem : CartItem := { ID := "a", Category := "otc", Price := 150 }

/-- The coupon `SAVE10` with a time window whose start (10) lies after its end (5). -/
def invertedWindowCoupon : Coupon :=
  { SAVE10 with ValidTimeWindow := some { StartTime := 10, EndTime := 5 } }

/-- The coupon `SAVE10` with the window from instant 10 to instant 20. -/
def windowCoupon : Coupon :=
  { SAVE10 with ValidTimeWindow := some { StartTime := 10, EndTime := 20 } }

/-- The coupon `SAVE10` at 7% instead of 10%. -/
def SAVE7 : Coupon :=
  { SAVE10 with CouponCode := "SAVE7", DiscountValue := 7 }

/-- The items discount `validateCouponRules` computes on acceptance. -/
def itemsDiscountOf (coupon : Coupon) (req : ValidationRequest) : F64 :=
  if coupon.DiscountType = Percentage then
    F64.mul (.finite req.OrderTotal) (F64.quot coupon.DiscountValue 100 (by norm_num))
  else .finite coupon.DiscountValue

/-- The float64 value written `1e308`. -/
def float1e308 : ℚ :=
  100000000000000001097906362944045541740492309677311846336810682903157585404911491537163328978494688899061249669721172515611590283743140088328307009198146046031271664502933027185697489699588559043338384466165001178426897626212945177628091195786707458122783970171784415105291802893207873272974885715430223118336

/-- A fixed coupon of value 50 with the filters of `SAVE10`. -/
def FLAT50 : Coupon :=
  { SAVE10 with CouponCode := "FLAT50", DiscountType := Fixed, DiscountValue := 50 }

/-- The item-eligibility predicate: the item's ID is among the coupon's medicine
IDs or its category among the coupon's categories. -/
def itemMatches (coupon : Coupon) (item : CartItem) : Prop :=
  item.ID ∈ coupon.ApplicableMedicineIDs ∨ item.Category ∈ coupon.ApplicableCategories

instance (coupon : Coupon) (item : CartItem) : Decidable (itemMatches coupon item) := by
  unfold itemMatches; infer_instance

/-- The rejection of the expiry rule. -/
def expiredResponse : ValidationResponse :=
  { IsValid := false, Discount := none, Message := "", Reason := "coupon has expired" }

/-- The rejection of the time-window rule. -/
def windowResponse : ValidationResponse :=
  { IsValid := false, Discount := none, Message := "", Reason := "invalid time window" }

/-- The rejection of the item-eligibility rule. -/
def noItemsResponse : ValidationResponse :=
  { IsValid := false, Discount := none, Message := "", Reason := "No applicable items in cart" }

/-- The acceptance with items discount `d`. -/
def acceptedResponse (d : F64) : ValidationResponse :=
  { IsValid := true, Discount := some { ItemsDiscount := d, ChargesDiscount := .finite 0 },
    Message := "Coupon applied successfully", Reason := "" }

/-- The response for a code the store does not know. -/
def notFoundResponse : ValidationResponse :=
  { IsValid := false, Discount := none, Message := "", Reason := "coupon not found" }

/-- What the store path of `ValidateCoupon` answers, given how the store's
`GetByCode` ended. -/
def storeAnswer (env : Env) (req : ValidationRequest) :
    Outcome (Except GoError (Option Coupon)) → Outcome (Except GoError ValidationResponse)
  | .nilPointerDereference => .nilPointerDereference
  | .returned (.error err) => .returned (.error err)
  | .returned (.ok none) => .returned (.ok notFoundResponse)
  | .returned (.ok (some coupon)) => .returned (validateCouponRules env.now₁ env.now₂ coupon req)

/-- A codec whose encoding of a coupon is the coupon itself. -/
def plainCodec : Codec Coupon := { Marshal := fun c => .ok c, Unmarshal := fun b => .ok b }

/-- A store that knows `SAVE10`, fails on the code `"DOWN"` and knows no other code. -/
def sampleStore : CouponRepository :=
  { GetByCode := fun code =>
      if code = "SAVE10" then .returned (.ok (some SAVE10))
      else if code = "DOWN" then .returned (.error ⟨"connection lost"⟩)
      else .returned (.ok none) }

/-- A call environment with every clock at instant `t` and a reachable cache. -/
def envAt (t : Time) : Env :=
  { getAt := t, getDown := false, setAt := t, setDown := false, now₁ := t, now₂ := t }

/-- An empty cache and a store never called. -/
def freshState : ServiceState Coupon := { cache := [], storeCalls := 0 }

/-- A pool with an empty table and an insert that succeeds. -/
def emptyPool : Pool := { QueryRow := fun _ => .errNoRows, Exec := fun _ => none }

/-! ## Theorems -/

/-! ### The cart loops -/

theorem scanFilter_eq (key : String) (xs : List String) (v : Bool) :
    scanFilter key xs v = (v || decide (key ∈ xs)) := by
  induction xs with
  | nil => simp [scanFilter]
  | cons x rest ih =>
    by_cases hx : key = x
    · simp [scanFilter, hx]
    · simp [scanFilter, hx, ih]

theorem scanCart_eq (coupon : Coupon) (items : List CartItem) (v : Bool) :
    scanCart coupon items v = (v || items.any (fun item => decide (itemMatches coupon item))) := by
  induction items generalizing v with
  | nil => simp [scanCart]
  | cons item rest ih =>
    simp only [scanCart, ih, scanFilter_eq, List.any_cons, itemMatches, Bool.decide_or,
      Bool.or_assoc]

theorem scanCart_false_iff (coupon : Coupon) (items : List CartItem) :
    scanCart coupon items false = true ↔ ∃ item ∈ items, itemMatches coupon item := by
  simp [scanCart_eq]


/-- The expiry rule comes first. -/
theorem expired_shape (now₁ now₂ : Time) (coupon : Coupon) (req : ValidationRequest)
    (h : coupon.ExpiryDate < now₁) :
    validateCouponRules now₁ now₂ coupon req = .ok expiredResponse := by
  simp [validateCouponRules, Time.After, h, ErrCouponExpired, expiredResponse]

/-- C2: whenever the clock read by the expiry check is strictly after
`coupon.ExpiryDate`, the response is invalid with reason "coupon has expired"
and no discount, whatever the other fields are. -/
theorem C2_expired_rejects (now₁ now₂ : Time) (coupon : Coupon) (req : ValidationRequest)
    (h : coupon.ExpiryDate < now₁) :
    validateCouponRules now₁ now₂ coupon req =
      .ok { IsValid := false, Discount := none, Message := "", Reason := "coupon has expired" } := by
  simp [validateCouponRules, Time.After, h, ErrCouponExpired]

theorem C2_expired_rejects_witness :
    SAVE10.ExpiryDate < 31 * Day ∧
    validateCouponRules (31 * Day) (31 * Day) SAVE10 (otcRequest 150) =
      .ok { IsValid := false, Discount := none, Message := "", Reason := "coupon has expired" } :=
  ⟨by decide, C2_expired_rejects (31 * Day) (31 * Day) SAVE10 (otcRequest 150) (by decide)⟩

/-- C1: at a time not after the expiry date, an order total below the coupon's
minimum order value is rejected with reason "minimum order value not met",
whatever the time window, the filters and the cart are. -/
theorem C1_min_order_rejects (now₁ now₂ : Time) (coupon : Coupon) (req : ValidationRequest)
    (hexp : ¬ coupon.ExpiryDate < now₁) (hmin : req.OrderTotal < coupon.MinOrderValue) :
    validateCouponRules now₁ now₂ coupon req =
      .ok { IsValid := false, Discount := none, Message := "",
            Reason := "minimum order value not met" } := by
  simp [validateCouponRules, Time.After, hexp, hmin, ErrMinOrderNotMet]

theorem C1_min_order_rejects_witness :
    validateCouponRules 0 0 SAVE10 (otcRequest 50) =
      .ok { IsValid := false, Discount := none, Message := "",
            Reason := "minimum order value not met" } :=
  C1_min_order_rejects 0 0 SAVE10 (otcRequest 50) (by decide) (by norm_num [otcRequest, SAVE10])

/-- The shape of `validateCouponRules` once the expiry and minimum-order rules pass. -/
theorem validateCouponRules_past_min (now₁ now₂ : Time) (coupon : Coupon)
    (req : ValidationRequest) (hexp : ¬ coupon.ExpiryDate < now₁)
    (hmin : ¬ req.OrderTotal < coupon.MinOrderValue) :
    validateCouponRules now₁ now₂ coupon req =
      if (match coupon.ValidTimeWindow with
          | none => false
          | some w => Time.Before now₂ w.StartTime || Time.After now₂ w.EndTime) = true then
        .ok windowResponse
      else if scanCart coupon req.CartItems false = true then
        .ok (acceptedResponse (itemsDiscountOf coupon req))
      else .ok noItemsResponse := by
  simp only [validateCouponRules, Time.After, hexp, hmin, decide_False, if_false,
    Bool.false_eq_true, windowResponse, noItemsResponse, ErrInvalidTimeWindow, acceptedResponse,
    itemsDiscountOf]
  split
  · rfl
  · cases scanCart coupon req.CartItems false <;> simp

/-- The window test of `validateCouponRules` passes exactly inside the closed window. -/
theorem window_passes_iff (now₂ : Time) (tw : Option TimeWindow) :
    (match tw with
      | none => false
      | some w => Time.Before now₂ w.StartTime || Time.After now₂ w.EndTime) = true ↔
      ∃ w, tw = some w ∧ (now₂ < w.StartTime ∨ w.EndTime < now₂) := by
  cases tw with
  | none => simp
  | some w => simp [Time.Before, Time.After]

/-- C4: once the expiry, minimum-order and time-window rules pass, the coupon is
accepted exactly when some cart item matches by ID or by category; without such
an item the response is the rejection "No applicable items in cart"; and a
matching item at any position of the cart, whatever precedes and follows it,
gives acceptance. -/
theorem C4_item_eligibility (now₁ now₂ : Time) (coupon : Coupon) (req : ValidationRequest)
    (hexp : ¬ coupon.ExpiryDate < now₁) (hmin : ¬ req.OrderTotal < coupon.MinOrderValue)
    (hwin : ∀ w, coupon.ValidTimeWindow = some w → w.StartTime ≤ now₂ ∧ now₂ ≤ w.EndTime) :
    ((∃ resp, validateCouponRules now₁ now₂ coupon req = .ok resp ∧ resp.IsValid = true) ↔
      ∃ item ∈ req.CartItems, itemMatches coupon item) ∧
    ((¬ ∃ item ∈ req.CartItems, itemMatches coupon item) →
      validateCouponRules now₁ now₂ coupon req = .ok noItemsResponse) ∧
    (∀ (before after : List CartItem) (item : CartItem),
      req.CartItems = before ++ item :: after → itemMatches coupon item →
      ∃ resp, validateCouponRules now₁ now₂ coupon req = .ok resp ∧ resp.IsValid = true) := by
  have hw : ¬ ((match coupon.ValidTimeWindow with
      | none => false
      | some w => Time.Before now₂ w.StartTime || Time.After now₂ w.EndTime) = true) := by
    rw [window_passes_iff]
    rintro ⟨w, hw, hout⟩
    obtain ⟨hlo, hhi⟩ := hwin w hw
    rcases hout with h | h
    · exact absurd h (not_lt.mpr hlo)
    · exact absurd h (not_lt.mpr hhi)
  have hshape := validateCouponRules_past_min now₁ now₂ coupon req hexp hmin
  rw [if_neg hw] at hshape
  have hiff : (∃ resp, validateCouponRules now₁ now₂ coupon req = .ok resp ∧
      resp.IsValid = true) ↔ ∃ item ∈ req.CartItems, itemMatches coupon item := by
    rw [← scanCart_false_iff, hshape]
    by_cases hs : scanCart coupon req.CartItems false = true
    · simp [hs, acceptedResponse]
    · simp [hs, noItemsResponse]
  refine ⟨hiff, ?_, ?_⟩
  · intro hnone
    rw [← scanCart_false_iff] at hnone
    rw [hshape, if_neg hnone]
  · intro before after item hcart hitem
    exact hiff.2 ⟨item, by simp [hcart], hitem⟩

theorem C4_item_eligibility_witness :
    ∃ resp, validateCouponRules 0 0 SAVE10
        (cartRequest ([rxItem, rxItem, rxItem] ++ otcItem ::
          [rxItem, rxItem, rxItem, rxItem, rxItem, rxItem]) 150) = .ok resp ∧
      resp.IsValid = true :=
  (C4_item_eligibility 0 0 SAVE10
      (cartRequest ([rxItem, rxItem, rxItem] ++ otcItem ::
        [rxItem, rxItem, rxItem, rxItem, rxItem, rxItem]) 150)
      (by decide) (by norm_num [cartRequest, SAVE10]) (by simp [SAVE10])).2.2
    [rxItem, rxItem, rxItem] [rxItem, rxItem, rxItem, rxItem, rxItem, rxItem] otcItem rfl
    (by simp [itemMatches, SAVE10, otcItem])

/-- C5 (as stated, refuted): a coupon whose window has its start (10) after its
end (5), evaluated at an instant equal to `StartTime`, passes the expiry and
minimum-order rules and is rejected with "invalid time window". -/
theorem C5_start_boundary_counterexample :
    ¬ invertedWindowCoupon.ExpiryDate < 10 ∧
    ¬ (otcRequest 150).OrderTotal < invertedWindowCoupon.MinOrderValue ∧
    invertedWindowCoupon.ValidTimeWindow = some { StartTime := 10, EndTime := 5 } ∧
    validateCouponRules 10 10 invertedWindowCoupon (otcRequest 150) = .ok windowResponse := by
  refine ⟨by decide, by norm_num [otcRequest, invertedWindowCoupon, SAVE10], rfl, ?_⟩
  rw [validateCouponRules_past_min 10 10 invertedWindowCoupon (otcRequest 150) (by decide)
    (by norm_num [otcRequest, invertedWindowCoupon, SAVE10])]
  simp [invertedWindowCoupon, Time.Before, Time.After]

/-- C5 (amended): for a coupon that passes the expiry and minimum-order rules, the
response is the rejection "invalid time window" exactly when a window is set and
the instant read by the window check is strictly before `StartTime` or strictly
after `EndTime`; a coupon without a window is never rejected by this rule; and
when `StartTime ≤ EndTime`, an instant equal to `StartTime` or to `EndTime` is
not rejected by it. -/
theorem C5_time_window_inclusive (now₁ now₂ : Time) (coupon : Coupon) (req : ValidationRequest)
    (hexp : ¬ coupon.ExpiryDate < now₁) (hmin : ¬ req.OrderTotal < coupon.MinOrderValue) :
    (validateCouponRules now₁ now₂ coupon req = .ok windowResponse ↔
      ∃ w, coupon.ValidTimeWindow = some w ∧ (now₂ < w.StartTime ∨ w.EndTime < now₂)) ∧
    (coupon.ValidTimeWindow = none →
      validateCouponRules now₁ now₂ coupon req ≠ .ok windowResponse) ∧
    (∀ w, coupon.ValidTimeWindow = some w → w.StartTime ≤ w.EndTime →
      (now₂ = w.StartTime ∨ now₂ = w.EndTime) →
      validateCouponRules now₁ now₂ coupon req ≠ .ok windowResponse) := by
  have hiff : validateCouponRules now₁ now₂ coupon req = .ok windowResponse ↔
      ∃ w, coupon.ValidTimeWindow = some w ∧ (now₂ < w.StartTime ∨ w.EndTime < now₂) := by
    rw [← window_passes_iff, validateCouponRules_past_min now₁ now₂ coupon req hexp hmin]
    constructor
    · intro h
      by_contra hw
      rw [if_neg hw] at h
      revert h
      simp only [windowResponse, noItemsResponse, acceptedResponse]
      split_ifs <;> simp
    · intro hw
      rw [if_pos hw]
  refine ⟨hiff, ?_, ?_⟩
  · intro hnone h
    obtain ⟨w, hw, -⟩ := hiff.1 h
    simp [hnone] at hw
  · intro w hw hle hb h
    obtain ⟨w', hw', hout⟩ := hiff.1 h
    rw [hw] at hw'
    cases hw'
    rcases hb with hb | hb <;> rcases hout with h | h <;> subst hb
    · exact lt_irrefl _ h
    · exact absurd h (not_lt.mpr hle)
    · exact absurd h (not_lt.mpr hle)
    · exact lt_irrefl _ h

theorem C5_time_window_inclusive_witness :
    validateCouponRules 0 10 windowCoupon (otcRequest 150) ≠ .ok windowResponse ∧
    validateCouponRules 0 20 windowCoupon (otcRequest 150) ≠ .ok windowResponse ∧
    validateCouponRules 0 21 windowCoupon (otcRequest 150) = .ok windowResponse :=
  ⟨(C5_time_window_inclusive 0 10 windowCoupon (otcRequest 150) (by decide)
      (by norm_num [otcRequest, windowCoupon, SAVE10])).2.2
      { StartTime := 10, EndTime := 20 } rfl (by decide) (Or.inl rfl),
   (C5_time_window_inclusive 0 20 windowCoupon (otcRequest 150) (by decide)
      (by norm_num [otcRequest, windowCoupon, SAVE10])).2.2
      { StartTime := 10, EndTime := 20 } rfl (by decide) (Or.inr rfl),
   (C5_time_window_inclusive 0 21 windowCoupon (otcRequest 150) (by decide)
      (by norm_num [otcRequest, windowCoupon, SAVE10])).1.2
      ⟨{ StartTime := 10, EndTime := 20 }, rfl, Or.inr (by decide)⟩⟩

/-! ### The float64 rounding meets its specification -/

/-- The integer `roundHalfEven m n` lies within one half of `m / n`. -/
theorem roundHalfEven_nearest (m n : Nat) (hn : 0 < n) :
    2 * m ≤ 2 * (roundHalfEven m n * n) + n ∧ 2 * (roundHalfEven m n * n) ≤ 2 * m + n := by
  have hdm := Nat.div_add_mod m n
  have hr := Nat.mod_lt m hn
  have hq : m / n * n = n * (m / n) := Nat.mul_comm _ _
  unfold roundHalfEven
  simp only
  split_ifs <;> simp only [Nat.add_mul, Nat.one_mul, hq] <;> omega

/-- The rounded magnitude lies within half a spacing of the exact value, and the
spacing is never below `2 ^ (-1074)`. -/
theorem roundMagnitude_nearest (m n sig : Nat) (qe : Int) (hn : 0 < n)
    (h : roundMagnitude m n = some (sig, qe)) :
    |(m : ℚ) / n - sig * 2 ^ qe| ≤ 2 ^ qe / 2 ∧ -1074 ≤ qe := by
  unfold roundMagnitude at h
  simp only at h
  split_ifs at h with hov
  simp only [Option.some.injEq, Prod.mk.injEq] at h
  obtain ⟨hsig, hqe⟩ := h
  refine ⟨?_, by omega⟩
  rw [hqe] at hsig
  have hN : 0 < n * 2 ^ qe.toNat := Nat.mul_pos hn (by positivity)
  obtain ⟨h1, h2⟩ := roundHalfEven_nearest (m * 2 ^ (-qe).toNat) (n * 2 ^ qe.toNat) hN
  rw [hsig] at h1 h2
  have hnq : (0 : ℚ) < n := by exact_mod_cast hn
  have h1q : (2 : ℚ) * (m * 2 ^ (-qe).toNat) ≤ 2 * (sig * (n * 2 ^ qe.toNat)) + n * 2 ^ qe.toNat := by
    exact_mod_cast h1
  have h2q : (2 : ℚ) * (sig * (n * 2 ^ qe.toNat)) ≤ 2 * (m * 2 ^ (-qe).toNat) + n * 2 ^ qe.toNat := by
    exact_mod_cast h2
  have hz : (2 : ℚ) ^ qe = 2 ^ qe.toNat / 2 ^ (-qe).toNat := by
    rcases le_total 0 qe with hpos | hneg
    · have : (-qe).toNat = 0 := by omega
      rw [this, pow_zero, div_one, ← zpow_natCast]
      congr 1
      omega
    · have : qe.toNat = 0 := by omega
      rw [this, pow_zero, one_div, ← zpow_natCast, ← zpow_neg]
      congr 1
      omega
  have ha : (0 : ℚ) < 2 ^ (-qe).toNat := by positivity
  have hb : (0 : ℚ) < 2 ^ qe.toNat := by positivity
  rw [hz, abs_le]
  revert ha hb
  generalize (2 : ℚ) ^ (-qe).toNat = A at h1q h2q
  generalize (2 : ℚ) ^ qe.toNat = B at h1q h2q
  intro hA hB
  have e1 : (m : ℚ) / n + B / A / 2 - sig * (B / A) =
      (2 * (m * A) + n * B - 2 * (sig * (n * B))) / (2 * A * n) := by
    field_simp
    ring
  have e2 : sig * (B / A) + B / A / 2 - (m : ℚ) / n =
      (2 * (sig * (n * B)) + n * B - 2 * (m * A)) / (2 * A * n) := by
    field_simp
    ring
  have p1 : 0 ≤ (2 * (m * A) + n * B - 2 * (sig * (n * B))) / (2 * A * n) :=
    div_nonneg (by linarith) (by positivity)
  have p2 : 0 ≤ (2 * (sig * (n * B)) + n * B - 2 * (m * A)) / (2 * A * n) :=
    div_nonneg (by linarith) (by positivity)
  constructor <;> linarith

/-- Zero has no binary digits. -/
theorem bitLengthAux_zero (fuel : Nat) : bitLengthAux fuel 0 = 0 := by
  cases fuel <;> simp [bitLengthAux]

/-- With enough fuel, `bitLengthAux` counts the binary digits of `m`. -/
theorem bitLengthAux_spec (fuel m : Nat) (hm : 0 < m) (hf : m ≤ fuel) :
    ∃ b, bitLengthAux fuel m = b + 1 ∧ 2 ^ b ≤ m ∧ m < 2 ^ (b + 1) := by
  induction fuel generalizing m with
  | zero => omega
  | succ fuel ih =>
    rw [bitLengthAux, if_neg (by omega)]
    by_cases h2 : m / 2 = 0
    · refine ⟨0, by rw [h2, bitLengthAux_zero], ?_, ?_⟩ <;> omega
    · obtain ⟨b, hb, hlo, hhi⟩ := ih (m / 2) (by omega) (by omega)
      refine ⟨b + 1, by rw [hb], ?_, ?_⟩
      · rw [pow_succ]; omega
      · rw [pow_succ]; omega

/-- The bit length `b + 1` of a positive `m` satisfies `2 ^ b ≤ m < 2 ^ (b + 1)`. -/
theorem bitLength_spec (m : Nat) (hm : 0 < m) :
    ∃ b, bitLength m = b + 1 ∧ 2 ^ b ≤ m ∧ m < 2 ^ (b + 1) :=
  bitLengthAux_spec m m hm le_rfl

/-- A power of two with integer exponent, as a quotient of natural powers. -/
theorem two_zpow_split (k : Int) : (2 : ℚ) ^ k = 2 ^ k.toNat / 2 ^ (-k).toNat := by
  rcases le_total 0 k with hpos | hneg
  · have : (-k).toNat = 0 := by omega
    rw [this, pow_zero, div_one, ← zpow_natCast]
    congr 1
    omega
  · have : k.toNat = 0 := by omega
    rw [this, pow_zero, one_div, ← zpow_natCast, ← zpow_neg]
    congr 1
    omega

/-- The comparison made in `floorLog2`, read over the rationals. -/
theorem floorLog2_test_iff (m n : Nat) (hn : 0 < n) (k : Int) :
    n * 2 ^ k.toNat ≤ m * 2 ^ (-k).toNat ↔ (2 : ℚ) ^ k ≤ m / n := by
  have hnq : (0 : ℚ) < n := by exact_mod_cast hn
  rw [two_zpow_split, div_le_div_iff₀ (by positivity) hnq]
  constructor
  · intro h
    have : ((n * 2 ^ k.toNat : ℕ) : ℚ) ≤ ((m * 2 ^ (-k).toNat : ℕ) : ℚ) := by exact_mod_cast h
    push_cast at this
    linarith
  · intro h
    have : ((n * 2 ^ k.toNat : ℕ) : ℚ) ≤ ((m * 2 ^ (-k).toNat : ℕ) : ℚ) := by
      push_cast
      linarith
    exact_mod_cast this

/-- The exponent `floorLog2 m n` is the binary exponent of `m / n`. -/
theorem floorLog2_spec (m n : Nat) (hm : 0 < m) (hn : 0 < n) :
    (2 : ℚ) ^ floorLog2 m n ≤ m / n ∧ (m : ℚ) / n < 2 ^ (floorLog2 m n + 1) := by
  obtain ⟨bm, hbm, hmlo, hmhi⟩ := bitLength_spec m hm
  obtain ⟨bn, hbn, hnlo, hnhi⟩ := bitLength_spec n hn
  have hnq : (0 : ℚ) < n := by exact_mod_cast hn
  have hmq : (0 : ℚ) < m := by exact_mod_cast hm
  have hmlo' : (2 : ℚ) ^ (bm : ℤ) ≤ m := by rw [zpow_natCast]; exact_mod_cast hmlo
  have hmhi' : (m : ℚ) < 2 ^ ((bm : ℤ) + 1) := by
    rw [show ((bm : ℤ) + 1) = ((bm + 1 : ℕ) : ℤ) by push_cast; rfl, zpow_natCast]
    exact_mod_cast hmhi
  have hnlo' : (2 : ℚ) ^ (bn : ℤ) ≤ n := by rw [zpow_natCast]; exact_mod_cast hnlo
  have hnhi' : (n : ℚ) < 2 ^ ((bn : ℤ) + 1) := by
    rw [show ((bn : ℤ) + 1) = ((bn + 1 : ℕ) : ℤ) by push_cast; rfl, zpow_natCast]
    exact_mod_cast hnhi
  have hk : ((bitLength m : ℤ) - (bitLength n : ℤ)) = (bm : ℤ) - bn := by
    rw [hbm, hbn]; push_cast; ring
  -- 2^(k-1) < m/n < 2^(k+1)
  have hup : (m : ℚ) / n < 2 ^ ((bm : ℤ) - bn + 1) := by
    rw [div_lt_iff₀ hnq]
    calc (m : ℚ) < 2 ^ ((bm : ℤ) + 1) := hmhi'
      _ = 2 ^ ((bm : ℤ) - bn + 1) * 2 ^ (bn : ℤ) := by
          rw [← zpow_add₀ (by norm_num : (2 : ℚ) ≠ 0)]; congr 1; ring
      _ ≤ 2 ^ ((bm : ℤ) - bn + 1) * n := by
          apply mul_le_mul_of_nonneg_left hnlo' (by positivity)
  have hlo : (2 : ℚ) ^ ((bm : ℤ) - bn - 1) ≤ m / n := by
    rw [le_div_iff₀ hnq]
    calc (2 : ℚ) ^ ((bm : ℤ) - bn - 1) * n ≤ 2 ^ ((bm : ℤ) - bn - 1) * 2 ^ ((bn : ℤ) + 1) := by
          apply mul_le_mul_of_nonneg_left hnhi'.le (by positivity)
      _ = 2 ^ (bm : ℤ) := by
          rw [← zpow_add₀ (by norm_num : (2 : ℚ) ≠ 0)]; congr 1; ring
      _ ≤ m := hmlo'
  unfold floorLog2
  simp only [hk]
  split_ifs with ht
  · exact ⟨(floorLog2_test_iff m n hn _).1 ht, hup⟩
  · refine ⟨hlo, ?_⟩
    rw [sub_add_cancel]
    exact lt_of_not_le (fun h => ht ((floorLog2_test_iff m n hn _).2 h))

/-- The rounding meets the binary64 format: the result `sig * 2 ^ qe` lies within
half a spacing `2 ^ qe` of the exact value, the significand has at most 53 bits
(`sig = 2 ^ 53` being the first value of the next binade), the spacing is at least
that of the subnormal range, the value is below `2 ^ 1024`, and above the
subnormal range the significand uses all 53 bits. -/
theorem roundMagnitude_spec (m n sig : Nat) (qe : Int) (hm : 0 < m) (hn : 0 < n)
    (h : roundMagnitude m n = some (sig, qe)) :
    |(m : ℚ) / n - sig * 2 ^ qe| ≤ 2 ^ qe / 2 ∧ sig ≤ 2 ^ 53 ∧ -1074 ≤ qe ∧
      (sig : ℚ) * 2 ^ qe < 2 ^ 1024 ∧ (-1074 < qe → 2 ^ 52 ≤ sig) := by
  obtain ⟨hnear, hqlo⟩ := roundMagnitude_nearest m n sig qe hn h
  obtain ⟨helo, hehi⟩ := floorLog2_spec m n hm hn
  have hq : (0 : ℚ) < 2 ^ qe := by positivity
  unfold roundMagnitude at h
  simp only at h
  split_ifs at h with hov
  simp only [Option.some.injEq, Prod.mk.injEq] at h
  obtain ⟨hsig, hqe⟩ := h
  rw [hqe] at hov hsig
  refine ⟨hnear, ?_, hqlo, ?_, ?_⟩
  · have hle : floorLog2 m n + 1 ≤ qe + 53 := by omega
    have h1 : (m : ℚ) / n < 2 ^ qe * 2 ^ (53 : ℕ) := by
      calc (m : ℚ) / n < 2 ^ (floorLog2 m n + 1) := hehi
        _ ≤ 2 ^ (qe + 53) := zpow_le_zpow_right₀ (by norm_num) hle
        _ = 2 ^ qe * 2 ^ (53 : ℕ) := by
            rw [zpow_add₀ (by norm_num : (2 : ℚ) ≠ 0), ← zpow_natCast]; rfl
    have h2 := (abs_le.1 hnear).1
    have h3 : (sig : ℚ) * 2 ^ qe < 2 ^ qe * (2 ^ (53 : ℕ) + 1 / 2) := by linarith
    have h4 : (sig : ℚ) < 2 ^ (53 : ℕ) + 1 / 2 := by
      rw [mul_comm] at h3
      exact lt_of_mul_lt_mul_left h3 hq.le
    by_contra hgt
    have h5 : 2 ^ 53 + 1 ≤ sig := by omega
    have h6 : ((2 ^ 53 + 1 : ℕ) : ℚ) ≤ sig := by exact_mod_cast h5
    push_cast at h6
    linarith
  · rw [hsig] at hov
    have hlt : sig * 2 ^ qe.toNat < 2 ^ 1024 * 2 ^ (-qe).toNat := lt_of_not_le hov
    have hltq : ((sig * 2 ^ qe.toNat : ℕ) : ℚ) < ((2 ^ 1024 * 2 ^ (-qe).toNat : ℕ) : ℚ) :=
      Nat.cast_lt.2 hlt
    rw [Nat.cast_mul, Nat.cast_mul, Nat.cast_pow, Nat.cast_pow, Nat.cast_pow, Nat.cast_ofNat]
      at hltq
    have hA : (0 : ℚ) < 2 ^ (-qe).toNat := by positivity
    have key : ∀ T : ℚ, (sig : ℚ) * 2 ^ qe.toNat < T * 2 ^ (-qe).toNat →
        (sig : ℚ) * (2 ^ qe.toNat / 2 ^ (-qe).toNat) < T := by
      intro T hT
      rw [← mul_div_assoc, div_lt_iff₀ hA]
      exact hT
    rw [two_zpow_split]
    exact key _ hltq
  · intro hnormal
    have heq : floorLog2 m n = qe + 52 := by omega
    have h1 : (2 : ℚ) ^ qe * 2 ^ (52 : ℕ) ≤ m / n := by
      calc (2 : ℚ) ^ qe * 2 ^ (52 : ℕ) = 2 ^ (qe + 52) := by
            rw [zpow_add₀ (by norm_num : (2 : ℚ) ≠ 0), ← zpow_natCast]; rfl
        _ = 2 ^ floorLog2 m n := by rw [heq]
        _ ≤ m / n := helo
    have h2 := (abs_le.1 hnear).2
    have h3 : (2 : ℚ) ^ qe * (2 ^ (52 : ℕ) - 1 / 2) ≤ 2 ^ qe * sig := by linarith
    have h4 : (2 : ℚ) ^ (52 : ℕ) - 1 / 2 ≤ sig := le_of_mul_le_mul_left h3 hq
    by_contra hlt
    have h5 : sig + 1 ≤ 2 ^ 52 := by omega
    have h6 : ((sig + 1 : ℕ) : ℚ) ≤ ((2 ^ 52 : ℕ) : ℚ) := Nat.cast_le.2 h5
    push_cast at h6
    linarith

/-! ### Evaluating float64 operations -/

/-- The rounding of a positive `x = m / n` in lowest terms, from the rounded magnitude. -/
theorem roundF64_pos (x : ℚ) (m n sig : ℕ) (qe : ℤ) (hx : 0 < x) (hm : x.num = m)
    (hn : x.den = n) (h : roundMagnitude m n = some (sig, qe)) :
    roundF64 x = .finite (sig * 2 ^ qe) := by
  simp [roundF64, hx.ne', hm, hn, h, hx]

/-- The rounding of a positive `x = m / n` in lowest terms whose magnitude overflows. -/
theorem roundF64_overflow (x : ℚ) (m n : ℕ) (hx : 0 < x) (hm : x.num = m) (hn : x.den = n)
    (h : roundMagnitude m n = none) : roundF64 x = .posInf := by
  simp [roundF64, hx.ne', hm, hn, h, hx]

/-- In float64, `10 / 100` is the binary64 value nearest to one tenth. -/
theorem quot_10_100 :
    F64.quot 10 100 (by norm_num) = .finite (3602879701896397 / 36028797018963968) := by
  rw [F64.quot, roundF64_pos (10 / 100) 1 10 7205759403792794 (-56) (by norm_num)
    (by norm_num) (by norm_num) (by decide)]
  norm_num

/-- In float64, `7 / 100` is the binary64 value nearest to seven hundredths. -/
theorem quot_7_100 :
    F64.quot 7 100 (by norm_num) = .finite (1261007895663739 / 18014398509481984) := by
  rw [F64.quot, roundF64_pos (7 / 100) 7 100 5044031582654956 (-56) (by norm_num)
    (by norm_num) (by norm_num) (by decide)]
  norm_num

/-- In float64, `150 * (10 / 100)` is 15. -/
theorem mul_150_tenth :
    F64.mul (.finite 150) (F64.quot 10 100 (by norm_num)) = .finite 15 := by
  rw [quot_10_100]
  show roundF64 _ = _
  rw [roundF64_pos _ 270215977642229775 18014398509481984 8444249301319680 (-49)
    (by norm_num) (by norm_num) (by norm_num) (by decide)]
  norm_num

/-- In float64, `200 * (10 / 100)` is 20. -/
theorem mul_200_tenth :
    F64.mul (.finite 200) (F64.quot 10 100 (by norm_num)) = .finite 20 := by
  rw [quot_10_100]
  show roundF64 _ = _
  rw [roundF64_pos _ 90071992547409925 4503599627370496 5629499534213120 (-48)
    (by norm_num) (by norm_num) (by norm_num) (by decide)]
  norm_num

/-- In float64, `100 * (7 / 100)` is the binary64 value next above 7. -/
theorem mul_100_seven_hundredths :
    F64.mul (.finite 100) (F64.quot 7 100 (by norm_num)) =
      .finite (7881299347898369 / 1125899906842624) := by
  rw [quot_7_100]
  show roundF64 _ = _
  rw [roundF64_pos _ 31525197391593475 4503599627370496 7881299347898369 (-50)
    (by norm_num) (by norm_num) (by norm_num) (by decide)]
  norm_num

/-- In float64, `3 * (10 / 100)` is the binary64 value next above three tenths
(printed 0.30000000000000004). -/
theorem mul_3_tenth :
    F64.mul (.finite 3) (F64.quot 10 100 (by norm_num)) =
      .finite (1351079888211149 / 4503599627370496) := by
  rw [quot_10_100]
  show roundF64 _ = _
  rw [roundF64_pos _ 10808639105689191 36028797018963968 5404319552844596 (-54)
    (by norm_num) (by norm_num) (by norm_num) (by decide)]
  norm_num

set_option maxRecDepth 100000 in
/-- Ten times `1e308` is beyond the binary64 range. -/
theorem roundMagnitude_overflow : roundMagnitude (float1e308.num.natAbs * 10) 1 = none := by
  rw [show float1e308.num.natAbs = 100000000000000001097906362944045541740492309677311846336810682903157585404911491537163328978494688899061249669721172515611590283743140088328307009198146046031271664502933027185697489699588559043338384466165001178426897626212945177628091195786707458122783970171784415105291802893207873272974885715430223118336 from rfl]
  decide

/-- In float64, `1e308 * (1000 / 100)` overflows to `+Inf`. -/
theorem mul_1e308_ten :
    F64.mul (.finite float1e308) (F64.quot 1000 100 (by norm_num)) = .posInf := by
  rw [F64.quot, roundF64_pos (1000 / 100) 10 1 5629499534213120 (-49) (by norm_num)
    (by norm_num) (by norm_num) (by decide)]
  show roundF64 _ = _
  exact roundF64_overflow _ (float1e308.num.natAbs * 10) 1 (by norm_num [float1e308])
    (by norm_num [float1e308]) (by norm_num [float1e308]) roundMagnitude_overflow

/-- A request with the single `otc` item is accepted by a coupon with the rules of
`SAVE10` once the order total reaches 100. -/
theorem otc_accepted (coupon : Coupon) (total : ℚ) (h : ¬ total < 100)
    (hexp : coupon.ExpiryDate = SAVE10.ExpiryDate) (hmin : coupon.MinOrderValue = 100)
    (hwin : coupon.ValidTimeWindow = none) (hcat : coupon.ApplicableCategories = ["otc"]) :
    validateCouponRules 0 0 coupon (otcRequest total) =
      .ok (acceptedResponse (itemsDiscountOf coupon (otcRequest total))) := by
  rw [validateCouponRules_past_min 0 0 coupon (otcRequest total) (by rw [hexp]; decide)
    (by simpa [otcRequest, hmin] using h)]
  have hs : scanCart coupon (otcRequest total).CartItems false = true := by
    rw [scanCart_false_iff]
    exact ⟨_, List.mem_singleton.2 rfl, Or.inr (by simp [hcat])⟩
  simp [hwin, hs]

/-- C6 (as stated, refuted): the 7% coupon on an order total of 100 is accepted with
an items discount that is not the exact rational `100 × (7 / 100) = 7` but the
float64 value next above it, 7 + 2⁻⁵⁰ (printed 7.000000000000001). -/
theorem C6_exact_product_counterexample :
    validateCouponRules 0 0 SAVE7 (otcRequest 100) =
      .ok { IsValid := true,
            Discount := some { ItemsDiscount := .finite (7881299347898369 / 1125899906842624),
                               ChargesDiscount := .finite 0 },
            Message := "Coupon applied successfully", Reason := "" } ∧
    SAVE7.DiscountType = Percentage ∧
    (7881299347898369 / 1125899906842624 : ℚ) ≠
      (otcRequest 100).OrderTotal * (SAVE7.DiscountValue / 100) := by
  refine ⟨?_, rfl, by norm_num [otcRequest, SAVE7, SAVE10]⟩
  rw [otc_accepted SAVE7 100 (by norm_num) rfl rfl rfl rfl]
  have hd : itemsDiscountOf SAVE7 (otcRequest 100) =
      .finite (7881299347898369 / 1125899906842624) := by
    rw [← mul_100_seven_hundredths]
    rfl
  rw [hd]
  rfl

/-- C6 (amended): every accepted response carries the discount
`{ItemsDiscount = OrderTotal × (DiscountValue / 100), ChargesDiscount = 0}` for a
percentage coupon, the quotient and then the product computed in float64 (each
rounded to the nearest binary64 value, ties to even, overflow giving infinity),
and `{ItemsDiscount = DiscountValue, ChargesDiscount = 0}` for a fixed coupon,
the latter without reference to the order total. -/
theorem C6_discount_amount (now₁ now₂ : Time) (coupon : Coupon) (req : ValidationRequest)
    (resp : ValidationResponse) (hres : validateCouponRules now₁ now₂ coupon req = .ok resp)
    (hvalid : resp.IsValid = true) :
    (coupon.DiscountType = Percentage →
      resp.Discount =
        some { ItemsDiscount :=
                 F64.mul (.finite req.OrderTotal)
                   (F64.quot coupon.DiscountValue 100 (by norm_num)),
               ChargesDiscount := .finite 0 }) ∧
    (coupon.DiscountType = Fixed →
      resp.Discount =
        some { ItemsDiscount := .finite coupon.DiscountValue, ChargesDiscount := .finite 0 }) := by
  have hexp : ¬ coupon.ExpiryDate < now₁ := by
    intro h
    rw [expired_shape now₁ now₂ coupon req h] at hres
    cases hres
    simp [expiredResponse] at hvalid
  have hmin : ¬ req.OrderTotal < coupon.MinOrderValue := by
    intro h
    simp [validateCouponRules, Time.After, hexp, h] at hres
    subst hres
    simp at hvalid
  rw [validateCouponRules_past_min now₁ now₂ coupon req hexp hmin] at hres
  by_cases hw : (match coupon.ValidTimeWindow with
      | none => false
      | some w => Time.Before now₂ w.StartTime || Time.After now₂ w.EndTime) = true
  · rw [if_pos hw] at hres
    cases hres
    simp [windowResponse] at hvalid
  · rw [if_neg hw] at hres
    by_cases hs : scanCart coupon req.CartItems false = true
    · rw [if_pos hs] at hres
      cases hres
      constructor
      · intro hp
        simp [acceptedResponse, itemsDiscountOf, hp]
      · intro hf
        simp [acceptedResponse, itemsDiscountOf, hf, Fixed, Percentage]
    · rw [if_neg hs] at hres
      cases hres
      simp [noItemsResponse] at hvalid

theorem C6_discount_amount_witness :
    (∃ resp, validateCouponRules 0 0 SAVE10 (otcRequest 150) = .ok resp ∧ resp.IsValid = true ∧
      resp.Discount = some { ItemsDiscount := .finite 15, ChargesDiscount := .finite 0 }) ∧
    (∃ resp, validateCouponRules 0 0 SAVE10 (otcRequest 200) = .ok resp ∧ resp.IsValid = true ∧
      resp.Discount = some { ItemsDiscount := .finite 20, ChargesDiscount := .finite 0 }) ∧
    (∃ resp, validateCouponRules 0 0 FLAT50 (otcRequest 1000) = .ok resp ∧ resp.IsValid = true ∧
      resp.Discount = some { ItemsDiscount := .finite 50, ChargesDiscount := .finite 0 }) :=
  ⟨⟨_, otc_accepted SAVE10 150 (by norm_num) rfl rfl rfl rfl, rfl,
      ((C6_discount_amount 0 0 SAVE10 (otcRequest 150) _
        (otc_accepted SAVE10 150 (by norm_num) rfl rfl rfl rfl) rfl).1 rfl).trans
        (by rw [show (otcRequest 150).OrderTotal = 150 from rfl,
              show SAVE10.DiscountValue = 10 from rfl, mul_150_tenth])⟩,
   ⟨_, otc_accepted SAVE10 200 (by norm_num) rfl rfl rfl rfl, rfl,
      ((C6_discount_amount 0 0 SAVE10 (otcRequest 200) _
        (otc_accepted SAVE10 200 (by norm_num) rfl rfl rfl rfl) rfl).1 rfl).trans
        (by rw [show (otcRequest 200).OrderTotal = 200 from rfl,
              show SAVE10.DiscountValue = 10 from rfl, mul_200_tenth])⟩,
   ⟨_, otc_accepted FLAT50 1000 (by norm_num) rfl rfl rfl rfl, rfl,
      (C6_discount_amount 0 0 FLAT50 (otcRequest 1000) _
        (otc_accepted FLAT50 1000 (by norm_num) rfl rfl rfl rfl) rfl).2 rfl⟩⟩

/-- Every response of `validateCouponRules` carries a discount and no reason when
valid, a reason and no discount when invalid. -/
theorem validateCouponRules_shape (now₁ now₂ : Time) (coupon : Coupon) (req : ValidationRequest)
    (resp : ValidationResponse) (hres : validateCouponRules now₁ now₂ coupon req = .ok resp) :
    (resp.IsValid = true → resp.Discount.isSome = true ∧ resp.Reason = "") ∧
    (resp.IsValid = false → resp.Discount = none ∧ resp.Reason ≠ "") := by
  by_cases hexp : coupon.ExpiryDate < now₁
  · rw [expired_shape now₁ now₂ coupon req hexp] at hres
    cases hres
    simp [expiredResponse]
  · by_cases hmin : req.OrderTotal < coupon.MinOrderValue
    · simp [validateCouponRules, Time.After, hexp, hmin, ErrMinOrderNotMet] at hres
      subst hres
      simp
    · rw [validateCouponRules_past_min now₁ now₂ coupon req hexp hmin] at hres
      by_cases hw : (match coupon.ValidTimeWindow with
          | none => false
          | some w => Time.Before now₂ w.StartTime || Time.After now₂ w.EndTime) = true
      · rw [if_pos hw] at hres
        cases hres
        simp [windowResponse]
      · rw [if_neg hw] at hres
        by_cases hs : scanCart coupon req.CartItems false = true
        · rw [if_pos hs] at hres
          cases hres
          simp [acceptedResponse]
        · rw [if_neg hs] at hres
          cases hres
          simp [noItemsResponse]

/-- The method `validateCouponRules` never returns an error. -/
theorem validateCouponRules_ok (now₁ now₂ : Time) (coupon : Coupon) (req : ValidationRequest) :
    ∃ resp, validateCouponRules now₁ now₂ coupon req = .ok resp := by
  by_cases hexp : coupon.ExpiryDate < now₁
  · exact ⟨_, expired_shape now₁ now₂ coupon req hexp⟩
  · by_cases hmin : req.OrderTotal < coupon.MinOrderValue
    · exact ⟨_, by simp [validateCouponRules, Time.After, hexp, hmin]; rfl⟩
    · rw [validateCouponRules_past_min now₁ now₂ coupon req hexp hmin]
      split_ifs <;> exact ⟨_, rfl⟩

/-! ### The service call -/

/-- With a decodable cached coupon, `ValidateCoupon` evaluates it and leaves the state alone. -/
theorem ValidateCoupon_hit {Bytes : Type} (codec : Codec Bytes) (repo : CouponRepository)
    (env : Env) (s : ServiceState Bytes) (req : ValidationRequest) (data : Bytes)
    (coupon : Coupon) (hget : redisGet env s ("coupon:" ++ req.CouponCode) = .ok data)
    (hdec : codec.Unmarshal data = .ok coupon) :
    ValidateCoupon codec repo env s req =
      (.returned (validateCouponRules env.now₁ env.now₂ coupon req), s) := by
  simp [ValidateCoupon, hget, hdec]

/-- Without a decodable cached coupon, `ValidateCoupon` asks the store once and
answers from the store's reply. -/
theorem ValidateCoupon_fallthrough {Bytes : Type} (codec : Codec Bytes) (repo : CouponRepository)
    (env : Env) (s : ServiceState Bytes) (req : ValidationRequest)
    (hno : ¬ ∃ data coupon, redisGet env s ("coupon:" ++ req.CouponCode) = .ok data ∧
      codec.Unmarshal data = .ok coupon) :
    (ValidateCoupon codec repo env s req).1 = storeAnswer env req (repo.GetByCode req.CouponCode) ∧
    (ValidateCoupon codec repo env s req).2.storeCalls = s.storeCalls + 1 := by
  have hnone : (match redisGet env s ("coupon:" ++ req.CouponCode) with
      | .ok cachedData =>
        match codec.Unmarshal cachedData with
        | .ok coupon => some coupon
        | .error _ => none
      | .error _ => none) = none := by
    cases hget : redisGet env s ("coupon:" ++ req.CouponCode) with
    | error e => rfl
    | ok data =>
      cases hdec : codec.Unmarshal data with
      | error e => simp only [hdec]
      | ok coupon => exact absurd ⟨data, coupon, hget, hdec⟩ hno
  unfold ValidateCoupon
  simp only [hnone]
  cases hrepo : repo.GetByCode req.CouponCode with
  | nilPointerDereference => simp [storeAnswer]
  | returned reply =>
    cases reply with
    | error err => simp [storeAnswer]
    | ok found =>
      cases found with
      | none => simp [storeAnswer, notFoundResponse, ErrCouponNotFound]
      | some coupon =>
        refine ⟨by simp [storeAnswer], ?_⟩
        simp only
        cases codec.Marshal coupon with
        | error e => rfl
        | ok data =>
          simp only [redisSet]
          split <;> rfl

/-- A cache read that fails, or whose bytes do not decode, yields no cached coupon. -/
theorem no_cached_coupon {Bytes : Type} (codec : Codec Bytes) (env : Env)
    (s : ServiceState Bytes) (key : String)
    (h : (∃ e, redisGet env s key = .error e) ∨
      ∃ data e, redisGet env s key = .ok data ∧ codec.Unmarshal data = .error e) :
    ¬ ∃ data coupon, redisGet env s key = .ok data ∧ codec.Unmarshal data = .ok coupon := by
  rintro ⟨data', coupon, hget, hdec⟩
  rcases h with ⟨e, he⟩ | ⟨data, e, hd, he⟩
  · rw [he] at hget
    cases hget
  · rw [hd] at hget
    cases hget
    rw [he] at hdec
    cases hdec

/-- A lookup of the key just written finds the written bytes up to the expiry instant. -/
theorem Cache.Get_Set {Bytes : Type} (c : Cache Bytes) (t t' : Time) (key : String)
    (value : Bytes) (ttl : Int) :
    (c.Set t key value ttl).Get t' key =
      if t' ≤ t + ttl then .ok value else .error redisNil := by
  simp [Cache.Set, Cache.Get]

/-- On a cache miss with the coupon in the store and an encodable coupon, the call
asks the store once, writes the cache entry and evaluates the stored coupon. -/
theorem ValidateCoupon_populate {Bytes : Type} (codec : Codec Bytes) (repo : CouponRepository)
    (env : Env) (s : ServiceState Bytes) (req : ValidationRequest) (coupon : Coupon)
    (data : Bytes) (hstore : repo.GetByCode req.CouponCode = .returned (.ok (some coupon)))
    (hmiss : ∃ e, redisGet env s ("coupon:" ++ req.CouponCode) = .error e)
    (hset : env.setDown = false) (henc : codec.Marshal coupon = .ok data) :
    ValidateCoupon codec repo env s req =
      (.returned (validateCouponRules env.now₁ env.now₂ coupon req),
       { cache := s.cache.Set env.setAt ("coupon:" ++ req.CouponCode) data (5 * Minute),
         storeCalls := s.storeCalls + 1 }) := by
  obtain ⟨e, he⟩ := hmiss
  simp [ValidateCoupon, he, hstore, henc, redisSet, hset]

/-- Wired to the repository of `coupon_repository.go`, a call that finds no
decodable coupon in the cache ends in the nil-pointer dereference of `GetByCode`. -/
theorem ValidateCoupon_pool_miss {Bytes : Type} (codec : Codec Bytes) (pool : Pool) (env : Env)
    (s : ServiceState Bytes) (req : ValidationRequest)
    (hno : ¬ ∃ data coupon, redisGet env s ("coupon:" ++ req.CouponCode) = .ok data ∧
      codec.Unmarshal data = .ok coupon) :
    (ValidateCoupon codec (NewCouponRepository pool) env s req).1 = .nilPointerDereference := by
  rw [(ValidateCoupon_fallthrough codec (NewCouponRepository pool) env s req hno).1]
  rfl

/-- C7: every response `ValidateCoupon` returns without error has a discount and
an empty reason when it is valid, and no discount and a non-empty reason when it
is invalid; this covers the not-found response, every rule rejection and the
acceptance. -/
theorem C7_discount_xor_reason {Bytes : Type} (codec : Codec Bytes) (repo : CouponRepository)
    (env : Env) (s : ServiceState Bytes) (req : ValidationRequest) (resp : ValidationResponse)
    (hres : (ValidateCoupon codec repo env s req).1 = .returned (.ok resp)) :
    (resp.IsValid = true → resp.Discount.isSome = true ∧ resp.Reason = "") ∧
    (resp.IsValid = false → resp.Discount = none ∧ resp.Reason ≠ "") := by
  by_cases hhit : ∃ data coupon, redisGet env s ("coupon:" ++ req.CouponCode) = .ok data ∧
      codec.Unmarshal data = .ok coupon
  · obtain ⟨data, coupon, hget, hdec⟩ := hhit
    rw [ValidateCoupon_hit codec repo env s req data coupon hget hdec] at hres
    exact validateCouponRules_shape env.now₁ env.now₂ coupon req resp (Outcome.returned.inj hres)
  · rw [(ValidateCoupon_fallthrough codec repo env s req hhit).1] at hres
    cases hrepo : repo.GetByCode req.CouponCode with
    | nilPointerDereference => simp [hrepo, storeAnswer] at hres
    | returned reply =>
      cases reply with
      | error err => simp [hrepo, storeAnswer] at hres
      | ok found =>
        cases found with
        | none =>
          simp only [hrepo, storeAnswer, Outcome.returned.injEq, Except.ok.injEq] at hres
          subst hres
          simp [notFoundResponse]
        | some coupon =>
          simp only [hrepo, storeAnswer, Outcome.returned.injEq] at hres
          exact validateCouponRules_shape env.now₁ env.now₂ coupon req resp hres

theorem C7_discount_xor_reason_witness :
    (notFoundResponse.IsValid = true →
      notFoundResponse.Discount.isSome = true ∧ notFoundResponse.Reason = "") ∧
    (notFoundResponse.IsValid = false →
      notFoundResponse.Discount = none ∧ notFoundResponse.Reason ≠ "") :=
  C7_discount_xor_reason plainCodec sampleStore (envAt 0) freshState
    { CouponCode := "NOPE", CartItems := [], OrderTotal := 0, Timestamp := 0 } notFoundResponse
    (by simp [ValidateCoupon, redisGet, envAt, freshState, Cache.Get, sampleStore,
      notFoundResponse, ErrCouponNotFound])

/-- C8: `ValidateCoupon` returns an error exactly when the cache yields no
decodable coupon and the store's `GetByCode` returns an error; on a cache miss
with the code absent from the store the result is the non-error response "coupon
not found"; and when the cache read fails or its entry does not decode, the store
is asked once and the result is the store path's, the cache's failure never being
returned. -/
theorem C8_error_iff_store_fails {Bytes : Type} (codec : Codec Bytes) (repo : CouponRepository)
    (env : Env) (s : ServiceState Bytes) (req : ValidationRequest) :
    ((∃ err, (ValidateCoupon codec repo env s req).1 = .returned (.error err)) ↔
      (¬ ∃ data coupon, redisGet env s ("coupon:" ++ req.CouponCode) = .ok data ∧
          codec.Unmarshal data = .ok coupon) ∧
        ∃ err, repo.GetByCode req.CouponCode = .returned (.error err)) ∧
    ((∃ e, redisGet env s ("coupon:" ++ req.CouponCode) = .error e) →
      repo.GetByCode req.CouponCode = .returned (.ok none) →
      (ValidateCoupon codec repo env s req).1 = .returned (.ok notFoundResponse)) ∧
    (((∃ e, redisGet env s ("coupon:" ++ req.CouponCode) = .error e) ∨
        ∃ data e, redisGet env s ("coupon:" ++ req.CouponCode) = .ok data ∧
          codec.Unmarshal data = .error e) →
      (ValidateCoupon codec repo env s req).1 =
          storeAnswer env req (repo.GetByCode req.CouponCode) ∧
        (ValidateCoupon codec repo env s req).2.storeCalls = s.storeCalls + 1) := by
  refine ⟨?_, ?_, fun h => ValidateCoupon_fallthrough codec repo env s req
    (no_cached_coupon codec env s _ h)⟩
  · constructor
    · rintro ⟨err, herr⟩
      by_cases hhit : ∃ data coupon, redisGet env s ("coupon:" ++ req.CouponCode) = .ok data ∧
          codec.Unmarshal data = .ok coupon
      · obtain ⟨data, coupon, hget, hdec⟩ := hhit
        rw [ValidateCoupon_hit codec repo env s req data coupon hget hdec] at herr
        obtain ⟨resp, hresp⟩ := validateCouponRules_ok env.now₁ env.now₂ coupon req
        simp only [hresp] at herr
        cases herr
      · refine ⟨hhit, ?_⟩
        rw [(ValidateCoupon_fallthrough codec repo env s req hhit).1] at herr
        cases hrepo : repo.GetByCode req.CouponCode with
        | nilPointerDereference => simp [hrepo, storeAnswer] at herr
        | returned reply =>
          cases reply with
          | error e => exact ⟨e, rfl⟩
          | ok found =>
            cases found with
            | none => simp [hrepo, storeAnswer] at herr
            | some coupon =>
              obtain ⟨resp, hresp⟩ := validateCouponRules_ok env.now₁ env.now₂ coupon req
              simp [hrepo, storeAnswer, hresp] at herr
    · rintro ⟨hno, err, herr⟩
      exact ⟨err, by rw [(ValidateCoupon_fallthrough codec repo env s req hno).1, herr]; rfl⟩
  · intro hmiss habsent
    rw [(ValidateCoupon_fallthrough codec repo env s req
      (no_cached_coupon codec env s _ (Or.inl hmiss))).1, habsent]
    rfl

theorem C8_error_iff_store_fails_witness :
    (ValidateCoupon plainCodec sampleStore (envAt 0) freshState
        { CouponCode := "NOPE", CartItems := [], OrderTotal := 0, Timestamp := 0 }).1 =
      .returned (.ok notFoundResponse) ∧
    ∃ err, (ValidateCoupon plainCodec sampleStore { envAt 0 with getDown := true } freshState
        { CouponCode := "DOWN", CartItems := [], OrderTotal := 0, Timestamp := 0 }).1 =
      .returned (.error err) :=
  ⟨(C8_error_iff_store_fails plainCodec sampleStore (envAt 0) freshState
      { CouponCode := "NOPE", CartItems := [], OrderTotal := 0, Timestamp := 0 }).2.1
      ⟨redisNil, rfl⟩ (by simp [sampleStore]),
   (C8_error_iff_store_fails plainCodec sampleStore { envAt 0 with getDown := true } freshState
      { CouponCode := "DOWN", CartItems := [], OrderTotal := 0, Timestamp := 0 }).1.2
      ⟨by simp [redisGet, envAt], ⟨"connection lost"⟩, by simp [sampleStore]⟩⟩

/-- C9: on a cache miss for a code the store holds, `ValidateCoupon` calls the
store exactly once, writes the coupon's bytes under `"coupon:"+code` with expiry
five minutes after the write, and evaluates the stored coupon; a later call for
the same code whose cache read happens no later than that expiry calls the store
zero times, leaves the state as it is and evaluates the same coupon; a call whose
cache read happens after that expiry calls the store once more. -/
theorem C9_cache_aside_round_trip {Bytes : Type} (codec : Codec Bytes)
    (repo : CouponRepository) (env : Env) (s : ServiceState Bytes) (req : ValidationRequest)
    (coupon : Coupon) (data : Bytes)
    (hstore : repo.GetByCode req.CouponCode = .returned (.ok (some coupon)))
    (hmiss : ∃ e, redisGet env s ("coupon:" ++ req.CouponCode) = .error e)
    (hset : env.setDown = false)
    (henc : codec.Marshal coupon = .ok data) (hdec : codec.Unmarshal data = .ok coupon) :
    (ValidateCoupon codec repo env s req).2.storeCalls = s.storeCalls + 1 ∧
    (ValidateCoupon codec repo env s req).2.cache.find?
        (fun e => decide (e.key = "coupon:" ++ req.CouponCode)) =
      some { key := "coupon:" ++ req.CouponCode, value := data,
             expiresAt := env.setAt + 5 * (60 * 1000000000) } ∧
    (ValidateCoupon codec repo env s req).1 =
      .returned (validateCouponRules env.now₁ env.now₂ coupon req) ∧
    (∀ (repo₂ : CouponRepository) (env₂ : Env) (req₂ : ValidationRequest),
      req₂.CouponCode = req.CouponCode → env₂.getDown = false →
      env₂.getAt ≤ env.setAt + 5 * Minute →
      ValidateCoupon codec repo₂ env₂ (ValidateCoupon codec repo env s req).2 req₂ =
        (.returned (validateCouponRules env₂.now₁ env₂.now₂ coupon req₂),
         (ValidateCoupon codec repo env s req).2)) ∧
    (∀ (repo₂ : CouponRepository) (env₂ : Env) (req₂ : ValidationRequest),
      req₂.CouponCode = req.CouponCode → env.setAt + 5 * Minute < env₂.getAt →
      (ValidateCoupon codec repo₂ env₂ (ValidateCoupon codec repo env s req).2 req₂).2.storeCalls =
        (ValidateCoupon codec repo env s req).2.storeCalls + 1) := by
  rw [ValidateCoupon_populate codec repo env s req coupon data hstore hmiss hset henc]
  refine ⟨rfl, by simp [Cache.Set, Minute], rfl, ?_, ?_⟩
  · intro repo₂ env₂ req₂ hcode hup hlive
    apply ValidateCoupon_hit codec repo₂ env₂ _ req₂ data coupon _ hdec
    simp only [redisGet, hup, hcode, Cache.Get_Set, if_pos hlive]
    rfl
  · intro repo₂ env₂ req₂ hcode hlate
    refine (ValidateCoupon_fallthrough codec repo₂ env₂ _ req₂ ?_).2
    rintro ⟨data', coupon', hget, -⟩
    simp only [redisGet, hcode, Cache.Get_Set, if_neg (not_le.mpr hlate)] at hget
    split at hget <;> cases hget

theorem C9_cache_aside_round_trip_witness :
    (ValidateCoupon plainCodec sampleStore (envAt 0) freshState (otcRequest 150)).2.storeCalls =
      freshState.storeCalls + 1 ∧
    ValidateCoupon plainCodec sampleStore (envAt (4 * Minute))
        (ValidateCoupon plainCodec sampleStore (envAt 0) freshState (otcRequest 150)).2
        (otcRequest 150) =
      (.returned (validateCouponRules (4 * Minute) (4 * Minute) SAVE10 (otcRequest 150)),
       (ValidateCoupon plainCodec sampleStore (envAt 0) freshState (otcRequest 150)).2) ∧
    (ValidateCoupon plainCodec sampleStore (envAt (6 * Minute))
        (ValidateCoupon plainCodec sampleStore (envAt 0) freshState (otcRequest 150)).2
        (otcRequest 150)).2.storeCalls =
      (ValidateCoupon plainCodec sampleStore (envAt 0) freshState (otcRequest 150)).2.storeCalls
        + 1 :=
  have h := C9_cache_aside_round_trip plainCodec sampleStore (envAt 0) freshState (otcRequest 150)
    SAVE10 SAVE10 (by simp [sampleStore, otcRequest]) ⟨redisNil, rfl⟩ rfl rfl rfl
  ⟨h.1, h.2.2.2.1 sampleStore (envAt (4 * Minute)) (otcRequest 150) rfl rfl (by decide),
   h.2.2.2.2 sampleStore (envAt (6 * Minute)) (otcRequest 150) rfl (by decide)⟩

/-- C10 (the code at the failing inputs): `GetByCode` ends in a nil-pointer
dereference for every pool and every code, because the coupon it scans into is
freshly declared and its `ValidTimeWindow` is nil; `Create` ends in a nil-pointer
dereference for every coupon whose `ValidTimeWindow` is absent, `SAVE10` among
them. -/
theorem C10_nil_window_dereference :
    (∀ (pool : Pool) (code : String), GetByCode pool code = .nilPointerDereference) ∧
    (∀ (pool : Pool) (now₁ now₂ : Time) (coupon : Coupon), coupon.ValidTimeWindow = none →
      Create pool now₁ now₂ coupon = .nilPointerDereference) ∧
    GetByCode emptyPool "SAVE10" = .nilPointerDereference ∧
    Create emptyPool 0 0 SAVE10 = .nilPointerDereference := by
  refine ⟨fun _ _ => rfl, ?_, rfl, rfl⟩
  intro pool now₁ now₂ coupon hnone
  simp [Create, hnone]

end CouponMvp
